import Mathlib

/-!
# Verification of the cero address-resolution pipeline

Shallow embedding of the repository's Go source (`expandCIDR`, `isCIDR`,
`splitHostPort`, `isDomainName`, `processInputItem`, `main`'s worker pool)
together with the parts of Go's standard library that those functions
depend on (`net.ParseCIDR`, `net.ParseIP` via `netip.ParseAddr`,
`net.JoinHostPort`, `strings.TrimSpace`, the two compiled regular
expressions), and proofs settling the specification claims.

Machine integers are modelled as `Nat` with explicit `% 2^w` where the Go
code relies on wrap-around; Go byte strings are modelled as `List Char`
(all inputs relevant to the claims are ASCII, and every non-ASCII byte of
a UTF-8 encoded rune falls into the same rejecting default branches as the
rune itself, which is noted where it matters); fallible operations return
`Option`/`Except`.
-/

/-! ## Characters and small scanners -/

/-- ASCII decimal digit test (`'0' <= c && c <= '9'` on bytes in the Go
source; Go's regexp `\d` likewise matches exactly ASCII `[0-9]`). -/
def isDigitCh (c : Char) : Bool :=
  48 ≤ c.toNat && c.toNat ≤ 57

/-- Value of an ASCII hex digit, as in the inlined hex scanner of
`netip.parseIPv6` (`0-9`, `a-f`, `A-F`). -/
def hexVal (c : Char) : Option Nat :=
  if 48 ≤ c.toNat ∧ c.toNat ≤ 57 then some (c.toNat - 48)
  else if 97 ≤ c.toNat ∧ c.toNat ≤ 102 then some (c.toNat - 87)
  else if 65 ≤ c.toNat ∧ c.toNat ≤ 70 then some (c.toNat - 55)
  else none

/-- Embedding of Go `net`'s `dtoi`: reads a decimal prefix, returning the
value and the number of characters consumed; `none` models `ok == false`
(no digits, or the value reached `big = 0xFFFFFF`). -/
def dtoiLoop : List Char → Nat → Nat → Option (Nat × Nat)
  | [], n, i => if i = 0 then none else some (n, i)
  | c :: rest, n, i =>
    if 48 ≤ c.toNat ∧ c.toNat ≤ 57 then
      let n' := n * 10 + (c.toNat - 48)
      if 0xFFFFFF ≤ n' then none else dtoiLoop rest n' (i + 1)
    else if i = 0 then none else some (n, i)

/-! ## `netip.parseIPv4` (used by `net.ParseIP` and `net.ParseCIDR`)

Go source (`net/netip`, `parseIPv4Fields`): a single pass over the bytes
with state `val` (current octet value), `digLen` (digits in the current
octet), `pos` (completed octets).  A dot is rejected when it is the first
character, the last character, or directly follows another dot — all three
exactly when `digLen = 0` or the remainder is empty.  Octets with leading
zeros and values above 255 are rejected. -/

def v4Fields : List Char → Nat → Nat → Nat → List Nat → Option (List Nat)
  | [], val, _, pos, fields =>
    if pos < 3 then none else some (fields ++ [val])
  | c :: rest, val, digLen, pos, fields =>
    if 48 ≤ c.toNat ∧ c.toNat ≤ 57 then
      if digLen = 1 ∧ val = 0 then none   -- leading zero in an octet
      else
        let val' := val * 10 + (c.toNat - 48)
        if 255 < val' then none
        else v4Fields rest val' (digLen + 1) pos fields
    else if c.toNat = 46 then             -- '.'
      if digLen = 0 ∨ rest = [] then none -- ".x", "x..y", trailing "."
      else if pos = 3 then none           -- too many octets
      else v4Fields rest 0 0 (pos + 1) (fields ++ [val])
    else none

/-- `netip.parseIPv4`: four dot-separated decimal octets. -/
def parseIPv4 (s : List Char) : Option (List Nat) :=
  v4Fields s 0 0 0 []

/-! ## `netip.parseIPv6` (used by `net.ParseIP` and `net.ParseCIDR`)

Faithful to the Go loop: up to 8 colon-separated hex groups (a group's
value must stay `<= 0xFFFF`; the scanner itself imposes no digit-count
limit), one optional `::` ellipsis expanding to at least one zero group,
an optional embedded dotted-quad IPv4 occupying the final 4 bytes.
Both `net.ParseIP` and the modern `net.ParseCIDR` reject addresses whose
zone (`%zone` suffix) is non-empty — and an empty zone is itself a parse
error — so the embedding rejects `%` outright; this is observationally
the behaviour of both call sites in the program. -/

/-- Scan a hex group: returns `(value, digitsConsumed, rest)`;
`none` models the `acc > math.MaxUint16` overflow error. -/
def scanHexGroup : List Char → Nat → Nat → Option (Nat × Nat × List Char)
  | [], acc, cnt => some (acc, cnt, [])
  | c :: rest, acc, cnt =>
    match hexVal c with
    | none => some (acc, cnt, c :: rest)
    | some d =>
      let acc' := acc * 16 + d
      if 0xFFFF < acc' then none else scanHexGroup rest acc' (cnt + 1)

/-- Post-loop fixup of `netip.parseIPv6`: the remaining input must be
empty; a short address needs an ellipsis, whose position receives the
missing zero bytes; a full 16-byte address must not contain an ellipsis. -/
def v6Finish (s : List Char) (ip : List Nat) (ell : Option Nat) : Option (List Nat) :=
  if s ≠ [] then none
  else if ip.length < 16 then
    match ell with
    | none => none
    | some e => some (ip.take e ++ List.replicate (16 - ip.length) 0 ++ ip.drop e)
  else if ell.isSome then none else some ip

/-- Main loop of `netip.parseIPv6`; `fuel` counts the remaining groups
(the Go loop runs while `i < 16` and each iteration appends 2 bytes, so 8
iterations suffice; `fuel = (16 - ip.length) / 2`). -/
def v6Loop : Nat → List Char → List Nat → Option Nat → Option (List Nat)
  | 0, s, ip, ell => v6Finish s ip ell
  | fuel + 1, s, ip, ell =>
    match scanHexGroup s 0 0 with
    | none => none
    | some (acc, off, rest) =>
      if off = 0 then none                       -- a field needs >= 1 digit
      else if rest.head? = some '.' then         -- embedded IPv4 tail
        if (ell.isNone ∧ ip.length ≠ 12) ∨ 16 < ip.length + 4 then none
        else
          match parseIPv4 s with
          | none => none
          | some f4 => v6Finish [] (ip ++ f4) ell
      else
        let ip' := ip ++ [acc / 256, acc % 256]
        match rest with
        | [] => v6Finish [] ip' ell
        | ':' :: [] => none                      -- colon must be followed by more
        | ':' :: ':' :: s2 =>
          if ell.isSome then none                -- multiple ::
          else if s2 = [] then v6Finish [] ip' (some ip'.length)
          else v6Loop fuel s2 ip' (some ip'.length)
        | ':' :: s1 => v6Loop fuel s1 ip' ell
        | _ => none                              -- unexpected character

/-- `netip.parseIPv6` (zone-rejecting, see above): handles the leading
`::` before entering the group loop. -/
def parseIPv6 (s : List Char) : Option (List Nat) :=
  if s.contains '%' then none
  else
    match s with
    | ':' :: ':' :: rest =>
      if rest = [] then some (List.replicate 16 0) else v6Loop 8 rest [] (some 0)
    | _ => v6Loop 8 s [] none

/-! ## `netip.ParseAddr`, `net.ParseIP`, `net.ParseCIDR` -/

/-- The dispatch scan of `netip.ParseAddr`: the first of `.`, `:`, `%`
decides IPv4 / IPv6 / error; no special character at all is an error. -/
def parseAddrKind : List Char → Option Bool
  | [] => none
  | c :: rest =>
    if c.toNat = 46 then some true        -- '.'
    else if c.toNat = 58 then some false  -- ':'
    else if c.toNat = 37 then none        -- '%'
    else parseAddrKind rest

/-- `netip.ParseAddr` with `net.ParseIP`'s zone rejection folded in:
returns `(is4, bytes)` with 4 bytes for dotted-quad input, 16 otherwise. -/
def parseAddr (s : List Char) : Option (Bool × List Nat) :=
  match parseAddrKind s with
  | some true => (parseIPv4 s).map (fun f => (true, f))
  | some false => (parseIPv6 s).map (fun b => (false, b))
  | none => none

/-- `net.ParseIP` as used by `splitHostPort`: only success/failure
matters to the program. -/
def parseIP (s : List Char) : Option (List Nat) :=
  (parseAddr s).map (·.2)

/-- Split at the first `/`, as `ParseCIDR` does with `IndexByte`. -/
def splitFirstSlash : List Char → Option (List Char × List Char)
  | [] => none
  | c :: rest =>
    if c.toNat = 47 then some ([], rest)
    else (splitFirstSlash rest).map (fun pr => (c :: pr.1, pr.2))

/-- A parsed CIDR, i.e. Go's `*net.IPNet` restricted to what the program
reads from it: `net` is the masked (network) address as an integer in
`[0, 2^bits)`, `ones`/`bits` are `IPNet.Mask.Size()`.  `bits` is 32 for a
dotted-quad literal and 128 otherwise, exactly as `ipAddr.BitLen()`. -/
structure IPNet where
  net : Nat
  ones : Nat
  bits : Nat
deriving DecidableEq, Repr

/-- Big-endian byte-list to integer (`binary.BigEndian.Uint32/Uint64`). -/
def bytesToNat (bs : List Nat) : Nat :=
  bs.foldl (fun a b => a * 256 + b) 0

/-- `net.ParseCIDR`: split at the first `/`; parse the address with
`netip.ParseAddr` (rejecting zones); parse the mask with `dtoi`, which
must consume the whole mask text and give `n <= BitLen`; the stored IP is
`ip.Mask(CIDRMask(n, bits))`, i.e. the address with its `bits - n` low
bits cleared. -/
def parseCIDR (s : String) : Option IPNet :=
  match splitFirstSlash s.toList with
  | none => none
  | some (addr, mask) =>
    match parseAddr addr with
    | none => none
    | some (is4, bytes) =>
      let bitLen := if is4 then 32 else 128
      match dtoiLoop mask 0 0 with
      | none => none
      | some (n, consumed) =>
        if consumed = mask.length ∧ n ≤ bitLen then
          some ⟨bytesToNat bytes / 2 ^ (bitLen - n) * 2 ^ (bitLen - n), n, bitLen⟩
        else none

/-! ## `expandCIDR` -/

/-- The two failure modes of `expandCIDR`: `net.ParseCIDR` failure, and
the explicit "IPv6 mask is too wide" error. -/
inductive CidrError
  | parseError
  | maskRange
deriving DecidableEq, Repr

/-- The synchronous part of `expandCIDR` (everything before the goroutine
is spawned): parse the CIDR, fail with `maskRange` when
`mBits == 128 && mOnes < 64`, otherwise succeed (the generator's
behaviour is modelled separately by `xorGen`). -/
def expandCIDRm (s : String) : Except CidrError IPNet :=
  match parseCIDR s with
  | none => .error .parseError
  | some n => if n.bits = 128 ∧ n.ones < 64 then .error .maskRange else .ok n

/-! ## `isCIDR`, `portRegexp`, `bracketRegexp`, `splitHostPort`

`portRegexp = ^(.*?)(:(\d+))?$` with Go (RE2/Perl-flag) semantics:
`^`/`$` anchor to the whole text, `.` and `\d` do not match `'\n'`.
Consequences, which the definitions below encode:

* an input containing a newline has no match at all, so
  `FindStringSubmatch` returns `nil` and the subsequent `portMatch[1]`
  panics with an index-out-of-range — modelled as `none`;
* otherwise the lazy `(.*?)` picks the shortest host prefix whose
  remainder matches `(:\d+)?$`; since the digit group cannot contain a
  colon, this is exactly: split at the last colon when a non-empty
  all-digit suffix follows it, else take the whole string with empty
  port.

`bracketRegexp = ^\[.*\]$`: first char `[`, last char `]`, length at
least 2, and no newline between them (again because `.` excludes it). -/

/-- `strings.Contains(value, "/")` — the program's `isCIDR`. -/
def isCIDR (value : String) : Bool :=
  value.toList.contains '/'

/-- Split a character list at its last colon: `some (before, after)`,
or `none` when there is no colon. -/
def splitAtLastColon (cs : List Char) : Option (List Char × List Char) :=
  let rev := cs.reverse
  match rev.dropWhile (fun c => c ≠ ':') with
  | ':' :: before => some (before.reverse, (rev.takeWhile (fun c => c ≠ ':')).reverse)
  | _ => none

/-- `portRegexp.FindStringSubmatch` followed by reading groups 1 and 3:
`none` models the `nil` match (and hence the `portMatch[1]` panic). -/
def portSplit (cs : List Char) : Option (List Char × List Char) :=
  if cs.contains '\n' then none
  else
    match splitAtLastColon cs with
    | some (h, p) =>
      if p ≠ [] ∧ p.all isDigitCh then some (h, p) else some (cs, [])
    | none => some (cs, [])

/-- `bracketRegexp.MatchString`. -/
def bracketMatch (h : List Char) : Bool :=
  match h with
  | '[' :: rest =>
    rest ≠ [] && rest.getLast? = some ']' && rest.dropLast.all (fun c => c ≠ '\n')
  | _ => false

/-- `splitHostPort` on character lists.  `none` models the panic on a
nil regexp match; every other input produces a best-effort split, as the
source's comment promises. -/
def splitHostPortL (cs : List Char) : Option (List Char × List Char) :=
  match portSplit cs with
  | none => none
  | some (host, port) =>
    let isIPv6 := host.contains ':'
    if isIPv6 && bracketMatch host then
      -- strings.TrimPrefix(host, "[") then strings.TrimSuffix(host, "]")
      some (host.tail.dropLast, port)
    else if port = [] then some (host, port)
    else if host.contains '/' then some (host, port)
    else if isIPv6 then
      if 4 < port.length then some (host, port)
      else
        -- fmt.Sprintf("%s:%s", host, port), net.ParseIP
        let hostPort := host ++ ':' :: port
        if (parseIP hostPort).isSome then some (hostPort, []) else some (host, port)
    else some (host, port)

/-- `splitHostPort` on strings. -/
def splitHostPort (addr : String) : Option (String × String) :=
  (splitHostPortL addr.toList).map (fun hp => (⟨hp.1⟩, ⟨hp.2⟩))

/-! ## `isDomainName`

Byte-for-byte embedding of the loop (the Go code walks UTF-8 bytes; every
byte of a multi-byte rune is `>= 0x80` and falls into the rejecting
`default` branch exactly as the corresponding `Char` does here, and the
length guard agrees on all strings that survive the scan, which are pure
ASCII — so the embedding is extensionally the Go function). -/

def domLoop : List Char → Char → Bool → Nat → Nat → Bool
  | [], last, nonNumeric, partlen, parts =>
    if last = '-' ∨ 63 < partlen then false
    else nonNumeric && (decide (1 < parts) || (decide (0 < parts) && last ≠ '.'))
  | c :: rest, last, nonNumeric, partlen, parts =>
    if (97 ≤ c.toNat ∧ c.toNat ≤ 122) ∨ (65 ≤ c.toNat ∧ c.toNat ≤ 90) then
      domLoop rest c true (partlen + 1) parts
    else if 48 ≤ c.toNat ∧ c.toNat ≤ 57 then
      domLoop rest c nonNumeric (partlen + 1) parts
    else if c = '-' then
      if last = '.' then false else domLoop rest c true (partlen + 1) parts
    else if c = '.' then
      if last = '.' ∨ last = '-' then false
      else if 63 < partlen ∨ partlen = 0 then false
      else domLoop rest c nonNumeric 0 (parts + 1)
    else false

/-- `isDomainName`. -/
def isDomainName (s : String) : Bool :=
  let l := s.length
  if l = 0 ∨ 254 < l ∨ (l = 254 ∧ s.toList.getLast? ≠ some '.') then false
  else domLoop s.toList '.' false 0 0

/-! ## The `expandCIDR` generator goroutine

Go loop (IPv4 case; the IPv6 case is the same loop over the low 64 bits):

```
for mask := uint32(0); mask <= ^mask32; mask++ {
    yield (ip32 ^ mask); }
close(outputChan)
```

`xorGen M inv ctr fuel` runs that loop for at most `fuel` iterations
starting from counter `ctr`, with counter arithmetic modulo `M` (`2^32`
or `2^64`) and `inv = ^mask` as the guard bound; it returns the emitted
counters and whether the loop exited (channel closed) within `fuel`
iterations.  Note that when `inv = M - 1` the guard never fails and the
increment wraps, so the loop never exits — the source of the `/0`
(IPv4) and `/64` (IPv6) non-termination established below. -/

def xorGen (M inv : Nat) : Nat → Nat → List Nat × Bool
  | _, 0 => ([], false)
  | ctr, fuel + 1 =>
    if ctr ≤ inv then
      let r := xorGen M inv ((ctr + 1) % M) fuel
      (ctr :: r.1, r.2)
    else ([], true)

/-- `mask32` as an integer: the top `ones` bits of a 32-bit word. -/
def mask32 (ones : Nat) : Nat := 2 ^ 32 - 2 ^ (32 - ones)

/-- `^mask32` (bitwise complement within 32 bits). -/
def invMask32 (ones : Nat) : Nat := 2 ^ 32 - 1 - mask32 ones

/-- `^mask64` for an IPv6 mask of `ones >= 64` set bits: complement of
the low 64 bits of the mask. -/
def invMask64 (ones : Nat) : Nat := 2 ^ 64 - 1 - (2 ^ 64 - 2 ^ (128 - ones))

/-- The address values yielded by the IPv4 generator within `fuel`
iterations: `ip32 ^ mask` for each emitted counter. -/
def v4Yields (net ones ctr fuel : Nat) : List Nat :=
  ((xorGen (2 ^ 32) (invMask32 ones) ctr fuel).1).map (fun c => Nat.xor net c)

/-! ## Rendering addresses (`net.IP.String`) -/

/-- Decimal rendering of a byte (`uitoa`). -/
def ubtoa (n : Nat) : String := ⟨Nat.toDigits 10 n⟩

/-- `net.IP.String` for a 4-byte IP: dotted quad. -/
def ip4String (ip : Nat) : String :=
  ubtoa (ip / 2 ^ 24 % 256) ++ "." ++ ubtoa (ip / 2 ^ 16 % 256) ++ "." ++
    ubtoa (ip / 2 ^ 8 % 256) ++ "." ++ ubtoa (ip % 256)

/-- Lowercase hex rendering without leading zeros (`appendHex`). -/
def hexStr (n : Nat) : String := ⟨Nat.toDigits 16 n⟩

/-- The 8 16-bit groups of a 128-bit value, most significant first. -/
def v6Groups (ip : Nat) : List Nat :=
  (List.range 8).map (fun i => ip / 2 ^ (16 * (7 - i)) % 2 ^ 16)

/-- Leftmost longest run (of length at least 2) of zero groups:
`some (start, stop)` with the run covering indices `[start, stop)`,
mirroring `netip`'s `string6` zero-run search. -/
def v6ZeroRun (gs : List Nat) : Option (Nat × Nat) :=
  let runLenFrom : Nat → Nat := fun i =>
    ((gs.drop i).takeWhile (fun g => g = 0)).length
  (List.range 8).foldl
    (fun best i =>
      let l := runLenFrom i
      match best with
      | none => if 2 ≤ l then some (i, i + l) else none
      | some (b0, b1) => if 2 ≤ l ∧ b1 - b0 < l then some (i, i + l) else best)
    none

/-- Assemble the compressed IPv6 text from groups and zero-run. -/
def v6Render (gs : List Nat) : String :=
  match v6ZeroRun gs with
  | none => String.intercalate ":" (gs.map hexStr)
  | some (b0, b1) =>
    String.intercalate ":" ((gs.take b0).map hexStr) ++ "::" ++
      String.intercalate ":" ((gs.drop b1).map hexStr)

/-- `net.IP.String` for a 16-byte IP: dotted quad when the value is
4-in-6 (`To4() != nil`, i.e. bytes 0-9 zero and bytes 10-11 `0xff`),
otherwise the RFC 5952 compressed form. -/
def ip16String (ip : Nat) : String :=
  if ip / 2 ^ 32 = 0xFFFF ∨ ip < 2 ^ 32 then
    -- To4 also succeeds on a 16-byte all-leading-zero v4 pattern only
    -- with the ffff marker; a fully-zero prefix without it is rendered
    -- as IPv6.  Only the marker case maps to dotted quad.
    if ip / 2 ^ 32 = 0xFFFF then ip4String (ip % 2 ^ 32) else v6Render (v6Groups ip)
  else v6Render (v6Groups ip)

/-! ## `processInputItem` and the pipeline front end -/

/-- `net.JoinHostPort`. -/
def joinHostPort (host port : String) : String :=
  if host.toList.contains ':' then "[" ++ host ++ "]:" ++ port
  else host ++ ":" ++ port

/-- `unicode.IsSpace`, restricted to the code points it accepts:
ASCII whitespace, NEL, NBSP, and the Unicode Z* categories. -/
def goIsSpace (c : Char) : Bool :=
  [9, 10, 11, 12, 13, 32, 0x85, 0xA0, 0x1680, 0x2028, 0x2029,
    0x202F, 0x205F, 0x3000].contains c.toNat
  || (0x2000 ≤ c.toNat && c.toNat ≤ 0x200A)

/-- `strings.TrimSpace`. -/
def goTrimSpace (s : String) : String :=
  ⟨((s.toList.dropWhile goIsSpace).reverse.dropWhile goIsSpace).reverse⟩

/-- One observable effect of `processInputItem`: a Target pushed on
`chanInput`, or a failed result pushed directly on `chanResult`. -/
inductive Emission
  | toInput : String → Emission
  | toResult : String → CidrError → Emission
deriving DecidableEq, Repr

/-- The complete list of addresses the `expandCIDR` goroutine delivers
before closing its channel — `none` when the loop never exits (prefix
`/0` for IPv4, `/64` or narrower for IPv6; see the non-termination
theorems), in which case the consuming `for ip := range ips` loop in
`processInputItem` never finishes. -/
def cidrYieldList (n : IPNet) : Option (List String) :=
  if n.bits = 32 then
    if n.ones = 0 then none
    else some ((v4Yields n.net n.ones 0 (invMask32 n.ones + 2)).map ip4String)
  else
    if n.ones ≤ 64 then none
    else
      some (((xorGen (2 ^ 64) (invMask64 n.ones) 0 (invMask64 n.ones + 2)).1).map
        (fun c => ip16String (n.net / 2 ^ 64 * 2 ^ 64 + Nat.xor (n.net % 2 ^ 64) c)))

/-- `processInputItem`, as the ordered list of its emissions.  `none`
models the two ways the call can fail to return normally: the
`splitHostPort` panic, and a never-terminating CIDR consumption loop. -/
def processInputItem (dports : List String) (input0 : String) : Option (List Emission) :=
  let input := goTrimSpace input0
  if input = "" then some []
  else
    match splitHostPort input with
    | none => none
    | some (host, port) =>
      let ports := if port = "" then dports else [port]
      if isCIDR host then
        match expandCIDRm host with
        | .error e => some [.toResult input e]
        | .ok n =>
          match cidrYieldList n with
          | none => none
          | some ips =>
            some ((ips.map (fun ip => ports.map (fun p => Emission.toInput (joinHostPort ip p)))).flatten)
      else some (ports.map (fun p => Emission.toInput (joinHostPort host p)))

/-- The Targets a list of emissions pushes into the worker pool. -/
def emissionInputs (es : List Emission) : List String :=
  es.filterMap (fun e => match e with | .toInput t => some t | .toResult _ _ => none)

/-- All Targets fed to `chanInput` for a list of raw inputs (as `main`'s
input loop does), in order. -/
def pipelineTargets (dports : List String) (inputs : List String) : Option (List String) :=
  (inputs.mapM (processInputItem dports)).map (fun l => (l.map emissionInputs).flatten)

/-! ## The worker pool (`main`)

The Go pipeline: `main` pushes Targets onto the unbuffered `chanInput`;
`concurrency` worker goroutines each run
`for addr := range chanInput { ... chanResult <- result }`; `main` closes
`chanInput` after the feed loop; a supervisor goroutine waits on the
workers' `WaitGroup` and then closes `chanResult`.

The labelled transition system below over-approximates every interleaving
of that code (channel buffering unbounded, worker count unbounded), so a
property proved for all reachable states holds in particular for the
unbuffered, `concurrency`-bounded executions:

* `feed` — `chanInput <- t` (only before `close(chanInput)`);
* `closeInput` — `close(chanInput)` after the whole feed list is sent;
* `take` — a worker receives a Target (it is now in flight);
* `emit` — a worker finishes a Target: `chanResult <- result`;
* `closeResult` — the supervisor closes `chanResult`; it fires only when
  the input is closed and drained and no worker holds a Target, which is
  exactly what `workersWG.Wait()` observes.
-/

structure PoolState where
  toFeed : List String
  pending : List String
  inFlight : List String
  emitted : List String
  inputClosed : Bool
  resultClosed : Bool
deriving DecidableEq, Repr

inductive PoolStep : PoolState → PoolState → Prop
  | feed (s : PoolState) (t : String) (rest : List String)
      (h1 : s.toFeed = t :: rest) (h2 : s.inputClosed = false) :
      PoolStep s { s with toFeed := rest, pending := s.pending ++ [t] }
  | closeInput (s : PoolState)
      (h1 : s.toFeed = []) (h2 : s.inputClosed = false) :
      PoolStep s { s with inputClosed := true }
  | take (s : PoolState) (t : String) (rest : List String)
      (h1 : s.pending = t :: rest) :
      PoolStep s { s with pending := rest, inFlight := s.inFlight ++ [t] }
  | emit (s : PoolState) (t : String)
      (h1 : t ∈ s.inFlight) :
      PoolStep s { s with inFlight := s.inFlight.erase t, emitted := s.emitted ++ [t] }
  | closeResult (s : PoolState)
      (h1 : s.inputClosed = true) (h2 : s.pending = []) (h3 : s.inFlight = [])
      (h4 : s.resultClosed = false) :
      PoolStep s { s with resultClosed := true }

/-- The pipeline's start state for a list of Targets to feed. -/
def initPool (T : List String) : PoolState :=
  ⟨T, [], [], [], false, false⟩

/-- Reachability from the start state. -/
def PoolReach (T : List String) (s : PoolState) : Prop :=
  Relation.ReflTransGen PoolStep (initPool T) s

/-- A run that has fully completed: everything fed, drained, emitted,
and both channels closed. -/
def PoolDone (s : PoolState) : Prop :=
  s.toFeed = [] ∧ s.pending = [] ∧ s.inFlight = [] ∧
    s.inputClosed = true ∧ s.resultClosed = true

/-- The inductive invariant of the pipeline: conservation of Targets
(nothing duplicated, nothing dropped), input closure follows the feed,
and result closure certifies quiescence of the workers. -/
def PoolInv (T : List String) (s : PoolState) : Prop :=
  (s.toFeed ++ s.pending ++ s.inFlight ++ s.emitted).Perm T ∧
    (s.inputClosed = false ∨ s.toFeed = []) ∧
    (s.resultClosed = true →
      s.toFeed = [] ∧ s.pending = [] ∧ s.inFlight = [] ∧ s.inputClosed = true)

/-! ## Generator lemmas -/

theorem xorGen_zero (M inv c : Nat) : xorGen M inv c 0 = ([], false) := rfl

theorem xorGen_succ (M inv c f : Nat) :
    xorGen M inv c (f + 1) =
      if c ≤ inv then
        ((c :: (xorGen M inv ((c + 1) % M) f).1), (xorGen M inv ((c + 1) % M) f).2)
      else ([], true) := rfl

/-- With `inv = M - 1` (an all-zero mask, i.e. `/0` or `/64`), the loop
guard `ctr <= ^mask` can never fail: the generator never closes its
channel, whatever the fuel. -/
theorem xorGen_wrap_never_closes (M : Nat) (hM : 0 < M) :
    ∀ (fuel c : Nat), c < M → (xorGen M (M - 1) c fuel).2 = false := by
  intro fuel
  induction fuel with
  | zero => intro c _; rfl
  | succ f ih =>
    intro c hc
    rw [xorGen_succ, if_pos (by omega)]
    exact ih ((c + 1) % M) (Nat.mod_lt _ hM)

/-- With `inv = M - 1` the generator emits the wrapped counter sequence
`c, c+1, ..., M-1, 0, 1, ...`. -/
theorem xorGen_wrap_get (M : Nat) (hM : 0 < M) :
    ∀ (fuel c k : Nat), c < M → k < fuel →
      ((xorGen M (M - 1) c fuel).1).get? k = some ((c + k) % M) := by
  intro fuel
  induction fuel with
  | zero => intro c k _ hk; exact absurd hk (Nat.not_lt_zero k)
  | succ f ih =>
    intro c k hc hk
    rw [xorGen_succ, if_pos (by omega)]
    cases k with
    | zero => simp [Nat.mod_eq_of_lt hc]
    | succ k' =>
      simp only [List.get?]
      rw [ih ((c + 1) % M) k' (Nat.mod_lt _ hM) (by omega), Nat.mod_add_mod]
      have hx : c + 1 + k' = c + (k' + 1) := by omega
      rw [hx]

/-! ## Claims C1 and C7: the `/0` (and `/64`) generator loop -/

/-- Claim C1 (code bug at `0.0.0.0/0`): `expandCIDR` accepts the CIDR
(no error, `mOnes = 0`, `mBits = 32`), its complemented mask `^mask32` is
`2^32 - 1`, and the generator loop never exits: after any number of
iterations the channel is still unclosed, because the guard
`mask <= ^mask32` holds for every `uint32` value and the counter wraps.
The returned sequence is therefore not finite, contradicting the claim
(and the function's own documentation, which declares `/[0-32]`
supported). -/
theorem expandCIDR_slash_zero_never_closes :
    expandCIDRm "0.0.0.0/0" = .ok ⟨0, 0, 32⟩ ∧
    invMask32 0 = 2 ^ 32 - 1 ∧
    ∀ fuel, (xorGen (2 ^ 32) (invMask32 0) 0 fuel).2 = false := by
  refine ⟨rfl, by decide, ?_⟩
  intro fuel
  have h : invMask32 0 = 2 ^ 32 - 1 := by decide
  rw [h]
  exact xorGen_wrap_never_closes (2 ^ 32) (by positivity) fuel 0 (by positivity)

/-- Claim C7 (code bug at `0.0.0.0/0`): the address sequence yielded for
`0.0.0.0/0` is not strictly increasing — the yield at index `2^32`
(after the counter wraps) is the network address `0` again, not greater
than the yield `2^32 - 1` at the previous index.  (For every prefix that
makes `^mask32 < 2^32 - 1` the loop terminates and the same counter
formula shows the yields are strictly increasing; only the wrapping
`/0` and `/64` cases break the claim.) -/
theorem expandCIDR_slash_zero_not_increasing :
    expandCIDRm "0.0.0.0/0" = .ok ⟨0, 0, 32⟩ ∧
    ∃ i a b, (v4Yields 0 0 0 (2 ^ 32 + 1)).get? i = some a ∧
      (v4Yields 0 0 0 (2 ^ 32 + 1)).get? (i + 1) = some b ∧ b ≤ a := by
  have hM : 0 < 2 ^ 32 := by positivity
  have hlt : 2 ^ 32 - 1 < 2 ^ 32 := Nat.sub_lt hM (by norm_num)
  have hinv : invMask32 0 = 2 ^ 32 - 1 := by decide
  refine ⟨rfl, 2 ^ 32 - 1, 2 ^ 32 - 1, 0, ?_, ?_, Nat.zero_le _⟩
  · unfold v4Yields
    rw [hinv, List.get?_map,
      xorGen_wrap_get (2 ^ 32) hM (2 ^ 32 + 1) 0 (2 ^ 32 - 1) hM (by omega)]
    simp [Nat.mod_eq_of_lt hlt]
    decide
  · unfold v4Yields
    have h2 : 2 ^ 32 - 1 + 1 = 2 ^ 32 := Nat.succ_pred_eq_of_pos hM
    rw [hinv, List.get?_map, h2,
      xorGen_wrap_get (2 ^ 32) hM (2 ^ 32 + 1) 0 (2 ^ 32) hM (by omega)]
    simp [Nat.mod_self]
    decide

/-! ## Claim C3: the two IPv6 ambiguity examples -/

/-- Claim C3: `splitHostPort` splits `1:1:1:1:1:1:1:1:80` (8 hextets +
trailing digit group, not itself valid IPv6) into host and port, but
returns `1:1:1:1:1:1:1:80` (7 hextets + trailing group, which re-parses
as a valid IPv6 literal) whole with empty port. -/
theorem splitHostPort_ipv6_ambiguity :
    splitHostPort "1:1:1:1:1:1:1:1:80" = some ("1:1:1:1:1:1:1:1", "80") ∧
    splitHostPort "1:1:1:1:1:1:1:80" = some ("1:1:1:1:1:1:1:80", "") :=
  ⟨by decide, by decide⟩

/-! ## Claim C8: `isDomainName` -/

/-- Claim C8: `isDomainName` is a total Boolean predicate (totality is
by construction of the embedding — every string evaluates to `true` or
`false`), and the four sample evaluations hold. -/
theorem isDomainName_total_and_examples :
    (∀ s, isDomainName s = true ∨ isDomainName s = false) ∧
    isDomainName "test.com.ru" = true ∧ isDomainName "test" = false ∧
    isDomainName "test-.com" = false ∧ isDomainName "127.0.0.1" = false :=
  ⟨fun s => Bool.eq_false_or_eq_true (isDomainName s),
    by decide, by decide, by decide, by decide⟩

/-! ## Claim C2: the error contract of `expandCIDR` -/

/-- Shape of a successful `net.ParseCIDR`: the bit length is 32 or 128
and the prefix length never exceeds it. -/
theorem parseCIDR_shape {s : String} {n : IPNet} (h : parseCIDR s = some n) :
    (n.bits = 32 ∨ n.bits = 128) ∧ n.ones ≤ n.bits := by
  simp only [parseCIDR] at h
  split at h
  · cases h
  split at h
  · cases h
  split at h
  · cases h
  split at h
  · split at h
    · rename_i hcond
      injection h with h'
      subst h'
      exact ⟨Or.inl rfl, hcond.2⟩
    · cases h
  · split at h
    · rename_i hcond
      injection h with h'
      subst h'
      exact ⟨Or.inr rfl, hcond.2⟩
    · cases h

/-- Claim C2: `expandCIDR` fails with a `ParseError` exactly on inputs
`net.ParseCIDR` rejects (the embedding's notion of a well-formed CIDR
literal); on a parsed CIDR it fails with the mask-range error precisely
for IPv6 prefixes shorter than 64, and succeeds for every IPv4 prefix in
`[0,32]` (all a parse can produce) and every IPv6 prefix in `[64,128]`. -/
theorem expandCIDR_error_contract (s : String) :
    (parseCIDR s = none → expandCIDRm s = .error .parseError) ∧
    (∀ n, parseCIDR s = some n →
      ((n.bits = 32 ∨ n.bits = 128) ∧ n.ones ≤ n.bits) ∧
      (n.bits = 128 → n.ones < 64 → expandCIDRm s = .error .maskRange) ∧
      (n.bits = 32 → expandCIDRm s = .ok n) ∧
      (n.bits = 128 → 64 ≤ n.ones → expandCIDRm s = .ok n)) := by
  constructor
  · intro h
    simp only [expandCIDRm, h]
  · intro n h
    refine ⟨parseCIDR_shape h, ?_, ?_, ?_⟩
    · intro hb ho
      simp only [expandCIDRm, h]
      rw [if_pos ⟨hb, ho⟩]
    · intro hb
      simp only [expandCIDRm, h]
      rw [if_neg (by omega)]
    · intro hb ho
      simp only [expandCIDRm, h]
      rw [if_neg (by omega)]

/-- Witness for claim C2: the contract applied at the concrete inputs
`10.0.0.0/30` (succeeds) and `::/63` (mask-range error). -/
theorem expandCIDR_error_contract_witness :
    expandCIDRm "10.0.0.0/30" = .ok ⟨167772160, 30, 32⟩ ∧
    expandCIDRm "::/63" = .error .maskRange := by
  constructor
  · exact ((expandCIDR_error_contract "10.0.0.0/30").2 ⟨167772160, 30, 32⟩
      (by decide)).2.2.1 rfl
  · exact ((expandCIDR_error_contract "::/63").2 ⟨0, 63, 128⟩
      (by decide)).2.1 rfl (by decide)

/-! ## Claims C4 and C10: totality and the port invariant -/

/-- Ports produced by the regexp stage are empty or all digits. -/
theorem portSplit_port {cs h p : List Char} (hs : portSplit cs = some (h, p)) :
    p = [] ∨ p.all isDigitCh = true := by
  unfold portSplit at hs
  split at hs
  · cases hs
  · split at hs
    · split at hs
      · rename_i hcond
        injection hs with hs'
        cases hs'
        exact Or.inr hcond.2
      · injection hs with hs'
        cases hs'
        exact Or.inl rfl
    · injection hs with hs'
      cases hs'
      exact Or.inl rfl

/-- The regexp stage succeeds on every newline-free input. -/
theorem portSplit_total {cs : List Char} (h : cs.contains '\n' = false) :
    (portSplit cs).isSome = true := by
  unfold portSplit
  rw [h]
  simp only [Bool.false_eq_true, if_false]
  split
  · split <;> rfl
  · rfl

/-- Every port returned by `splitHostPortL` is empty or all digits. -/
theorem splitHostPortL_port {cs h p : List Char} (hs : splitHostPortL cs = some (h, p)) :
    p = [] ∨ p.all isDigitCh = true := by
  unfold splitHostPortL at hs
  cases hps : portSplit cs with
  | none => rw [hps] at hs; cases hs
  | some hp0 =>
    obtain ⟨h0, p0⟩ := hp0
    have P0 := portSplit_port hps
    rw [hps] at hs
    simp only at hs
    repeat' split at hs
    all_goals injection hs with hs'
    all_goals cases hs'
    all_goals first | exact P0 | exact Or.inl rfl

/-- `splitHostPortL` fails (the Go code panics) exactly on inputs
containing a newline. -/
theorem splitHostPortL_isSome (cs : List Char) :
    (splitHostPortL cs).isSome = !cs.contains '\n' := by
  cases hc : cs.contains '\n' with
  | true =>
    unfold splitHostPortL portSplit
    rw [hc]
    simp
  | false =>
    have h1 := portSplit_total hc
    unfold splitHostPortL
    cases hps : portSplit cs with
    | none => rw [hps] at h1; cases h1
    | some hp =>
      obtain ⟨h0, p0⟩ := hp
      simp only [hps]
      repeat' split
      all_goals rfl

/-- Claim C4 (code bug on newline-containing input): `splitHostPort`
panics on any input containing `'\n'` — `portRegexp` is anchored and
neither `.` nor `\d` matches a newline, so `FindStringSubmatch` returns
nil and `portMatch[1]` is an out-of-range index (modelled by `none`);
on every other input it returns a pair, and the empty input yields
`("", "")`. -/
theorem splitHostPort_totality :
    splitHostPort "\n" = none ∧
    splitHostPort "" = some ("", "") ∧
    ∀ s : String, (splitHostPort s).isSome = !s.toList.contains '\n' := by
  refine ⟨by decide, by decide, ?_⟩
  intro s
  unfold splitHostPort
  cases hl : splitHostPortL s.toList with
  | none => rw [← splitHostPortL_isSome, hl]; rfl
  | some hp => rw [← splitHostPortL_isSome, hl]; rfl

/-- Claim C10: for every input on which `splitHostPort` returns, the
returned port is the empty string or a non-empty string of ASCII digits
(it originates from the regexp's `\d+` group or is reset to empty). -/
theorem splitHostPort_port_digits :
    ∀ (addr host port : String), splitHostPort addr = some (host, port) →
      port = "" ∨ port.toList.all isDigitCh = true := by
  intro addr host port h
  unfold splitHostPort at h
  cases hl : splitHostPortL addr.toList with
  | none => rw [hl] at h; cases h
  | some hp =>
    obtain ⟨h0, p0⟩ := hp
    rw [hl] at h
    simp only [Option.map] at h
    injection h with h'
    cases h'
    rcases splitHostPortL_port hl with h1 | h1
    · left
      rw [h1]
    · right
      exact h1

/-- Witness for claim C10 at the concrete input `example.com:8443`. -/
theorem splitHostPort_port_digits_witness :
    ("8443" : String) = "" ∨ "8443".toList.all isDigitCh = true :=
  splitHostPort_port_digits "example.com:8443" "example.com" "8443" (by decide)

/-! ## Claim C5: CIDR expansion failure in `processInputItem` -/

/-- Counterexample for claim C5 as stated: for the input `" ::/63"`
(leading space, IPv6 mask narrower than /64) the emitted failure result
carries the trimmed string `"::/63"` — `processInputItem` reassigns
`input = strings.TrimSpace(input)` before building the result — and no
result carrying the original string `" ::/63"` is emitted. -/
theorem processInputItem_trims_before_reporting :
    processInputItem ["443"] " ::/63" =
      some [Emission.toResult "::/63" CidrError.maskRange] ∧
    ∀ e, processInputItem ["443"] " ::/63" ≠
      some [Emission.toResult " ::/63" e] := by
  refine ⟨by decide, ?_⟩
  intro e
  cases e <;> decide

/-- Claim C5 (amended: the failed result carries the whitespace-trimmed
input string): whenever the host part of the trimmed input contains `/`
and CIDR expansion fails, `processInputItem` pushes exactly one failed
result carrying the trimmed input and the failure cause directly to the
result channel — the emission list is that single result, so nothing
reaches the worker pool — and returns normally (`some`). -/
theorem processInputItem_cidr_failure (dports : List String) (input host port : String)
    (e : CidrError)
    (hsplit : splitHostPort (goTrimSpace input) = some (host, port))
    (hcidr : isCIDR host = true)
    (herr : expandCIDRm host = .error e) :
    processInputItem dports input = some [Emission.toResult (goTrimSpace input) e] := by
  have hne : ¬ goTrimSpace input = "" := by
    intro h0
    rw [h0] at hsplit
    rw [show splitHostPort "" = some ("", "") from by decide] at hsplit
    injection hsplit with h1
    cases h1
    simp [isCIDR] at hcidr
  simp only [processInputItem, hsplit, hcidr, herr, if_neg hne, if_true]

/-- Witness for claim C5 at the concrete input `" ::/63"`. -/
theorem processInputItem_cidr_failure_witness :
    processInputItem ["443"] " ::/63" =
      some [Emission.toResult (goTrimSpace " ::/63") CidrError.maskRange] :=
  processInputItem_cidr_failure ["443"] " ::/63" "::/63" "" CidrError.maskRange
    (by decide) (by decide) rfl

/-! ## Claim C9: bracketed IPv6 round trip -/

theorem takeWhile_append_all {p : Char → Bool} {xs ys : List Char}
    (h : ∀ x ∈ xs, p x = true) :
    (xs ++ ys).takeWhile p = xs ++ ys.takeWhile p := by
  induction xs with
  | nil => simp
  | cons c tl ih =>
    simp only [List.cons_append, List.takeWhile_cons, h c (by simp)]
    simp [ih (fun x hx => h x (by simp [hx]))]

theorem dropWhile_append_all {p : Char → Bool} {xs ys : List Char}
    (h : ∀ x ∈ xs, p x = true) :
    (xs ++ ys).dropWhile p = ys.dropWhile p := by
  induction xs with
  | nil => simp
  | cons c tl ih =>
    simp only [List.cons_append, List.dropWhile_cons, h c (by simp)]
    exact ih (fun x hx => h x (by simp [hx]))

theorem dropWhile_colon_mem {l : List Char} (h : ':' ∈ l) :
    ∃ rest, l.dropWhile (fun c => c ≠ ':') = ':' :: rest := by
  induction l with
  | nil => cases h
  | cons c tl ih =>
    by_cases hc : c = ':'
    · subst hc
      exact ⟨tl, by simp [List.dropWhile_cons]⟩
    · have hm : ':' ∈ tl := by
        rcases List.mem_cons.1 h with h1 | h1
        · exact absurd h1.symm hc
        · exact h1
      rcases ih hm with ⟨rest, hr⟩
      refine ⟨rest, ?_⟩
      simp only [List.dropWhile_cons]
      simp [hc]
      simpa using hr

/-- `splitAtLastColon` on a list whose unique digit tail follows the
final colon. -/
theorem splitAtLastColon_append_digits (h0 p : List Char)
    (hd : ∀ c ∈ p, isDigitCh c = true) :
    splitAtLastColon (h0 ++ ':' :: p) = some (h0, p) := by
  have hall : ∀ x ∈ p.reverse, (decide (x ≠ ':')) = true := by
    intro x hx
    have hdx := hd x (List.mem_reverse.1 hx)
    simp only [decide_eq_true_eq]
    intro he
    subst he
    simp [isDigitCh] at hdx
  have hrev : (h0 ++ ':' :: p).reverse = p.reverse ++ ':' :: h0.reverse := by
    simp
  simp only [splitAtLastColon, hrev, dropWhile_append_all hall, takeWhile_append_all hall]
  simp [List.dropWhile_cons, List.takeWhile_cons]

/-- The regexp stage on `[v6]:p` with all-digit non-empty `p`. -/
theorem portSplit_bracket_digits (v p : List Char)
    (hvn : '\n' ∉ v) (hpne : p ≠ []) (hd : ∀ c ∈ p, isDigitCh c = true) :
    portSplit (('[' :: (v ++ [']'])) ++ ':' :: p) = some ('[' :: (v ++ [']']), p) := by
  have hmem : ('\n' : Char) ∉ ('[' :: (v ++ [']'])) ++ ':' :: p := by
    intro hm
    rcases List.mem_append.1 hm with h1 | h2
    · rcases List.mem_cons.1 h1 with h3 | h4
      · cases h3
      · rcases List.mem_append.1 h4 with h5 | h6
        · exact hvn h5
        · simp at h6
    · rcases List.mem_cons.1 h2 with h3 | h4
      · cases h3
      · have := hd _ h4
        simp [isDigitCh] at this
  have hnc : (('[' :: (v ++ [']'])) ++ ':' :: p).contains '\n' = false := by
    simpa using hmem
  simp only [portSplit, hnc, Bool.false_eq_true, if_false,
    splitAtLastColon_append_digits _ p hd]
  rw [if_pos ⟨hpne, List.all_eq_true.2 hd⟩]

/-- The regexp stage on a bare bracketed IPv6 host: the suffix after
the last colon ends in a bracket, so no port is split off. -/
theorem portSplit_bracket_noport (v : List Char)
    (hv6 : ':' ∈ v) (hvn : '\n' ∉ v) :
    portSplit ('[' :: (v ++ [']'])) = some ('[' :: (v ++ [']']), []) := by
  have hmem : ('\n' : Char) ∉ '[' :: (v ++ [']']) := by
    intro hm
    rcases List.mem_cons.1 hm with h3 | h4
    · cases h3
    · rcases List.mem_append.1 h4 with h5 | h6
      · exact hvn h5
      · simp at h6
  have hnc : ('[' :: (v ++ [']'])).contains '\n' = false := by
    simpa using hmem
  have hrev : ('[' :: (v ++ [']'])).reverse = ']' :: (v.reverse ++ ['[']) := by
    simp
  obtain ⟨rest, hdw⟩ := dropWhile_colon_mem (l := v.reverse ++ ['['])
    (by simp [hv6])
  simp only [portSplit, hnc, Bool.false_eq_true, if_false, splitAtLastColon, hrev,
    List.dropWhile_cons, List.takeWhile_cons]
  rw [hdw]
  rw [if_pos (show (decide ((']' : Char) ≠ ':')) = true from by decide),
      if_pos (show (decide ((']' : Char) ≠ ':')) = true from by decide)]
  have hcond : ¬((((']' :: List.takeWhile (fun c => decide (c ≠ ':')) (v.reverse ++ ['['])).reverse ≠ [])) ∧
      ((']' :: List.takeWhile (fun c => decide (c ≠ ':')) (v.reverse ++ ['['])).reverse.all isDigitCh = true)) := by
    rintro ⟨h1x, hall⟩
    have h2 := List.all_eq_true.1 hall ']' (by simp)
    exact absurd h2 (by decide)
  simp only [if_neg hcond]

/-- The bracketed-IPv6 early return of `splitHostPort`. -/
theorem splitHostPortL_bracket (cs v pt : List Char)
    (hps : portSplit cs = some ('[' :: (v ++ [']']), pt))
    (hv6 : ':' ∈ v) (hvn : '\n' ∉ v) :
    splitHostPortL cs = some (v, pt) := by
  have hcontains : ('[' :: (v ++ [']'])).contains ':' = true := by
    simp [hv6]
  have hbm : bracketMatch ('[' :: (v ++ [']'])) = true := by
    unfold bracketMatch
    simp only [List.getLast?_concat, List.dropLast_concat]
    simp [List.all_eq_true]
    intro c hc he
    subst he
    exact hvn hc
  unfold splitHostPortL
  rw [hps]
  simp only [hcontains, hbm, Bool.and_self, if_true]
  simp [List.dropLast_concat]

/-- Claim C9 (amended: `v6` additionally contains no newline — a newline
anywhere in the input makes the regexp match fail and the function panic,
see the counterexample): for every `[v6]:p` with `v6` containing a colon
and `p` a non-empty all-digit string, `splitHostPort` returns the
unbracketed `v6` and exactly `p`; without the `:p` suffix it returns
`v6` and the empty port. -/
theorem splitHostPort_bracketed_roundtrip (v6 p : String)
    (hv6 : v6.toList.contains ':' = true)
    (hvn : v6.toList.contains '\n' = false)
    (hpne : p.toList ≠ [])
    (hd : p.toList.all isDigitCh = true) :
    splitHostPort ("[" ++ v6 ++ "]:" ++ p) = some (v6, p) ∧
    splitHostPort ("[" ++ v6 ++ "]") = some (v6, "") := by
  obtain ⟨v⟩ := v6
  obtain ⟨pl⟩ := p
  have hv6' : ':' ∈ v := by simpa using hv6
  have hvn' : ('\n' : Char) ∉ v := by simpa using hvn
  have hd' : ∀ c ∈ pl, isDigitCh c = true := List.all_eq_true.1 hd
  constructor
  · have hstr : ("[" ++ String.mk v ++ "]:" ++ String.mk pl).toList
        = ('[' :: (v ++ [']'])) ++ ':' :: pl := by
      simp [String.toList]
    unfold splitHostPort
    rw [hstr, splitHostPortL_bracket _ v pl
      (portSplit_bracket_digits v pl hvn' hpne hd') hv6' hvn']
    rfl
  · have hstr : ("[" ++ String.mk v ++ "]").toList = '[' :: (v ++ [']']) := by
      simp [String.toList]
    unfold splitHostPort
    rw [hstr, splitHostPortL_bracket _ v []
      (portSplit_bracket_noport v hv6' hvn') hv6' hvn']
    rfl

/-- Counterexample for claim C9 as stated: `v6 = "\n:"` contains a
colon, `p = "80"` is a non-empty digit string, but on `"[\n:]:80"` the
anchored `portRegexp` has no match (newline), so `splitHostPort` panics
(`none`) instead of returning `("\n:", "80")`. -/
theorem splitHostPort_bracketed_newline :
    splitHostPort ("[" ++ "\n:" ++ "]:" ++ "80") = none ∧
    splitHostPort ("[" ++ "\n:" ++ "]:" ++ "80") ≠ some ("\n:", "80") :=
  ⟨by decide, by decide⟩

/-- Witness for claim C9 at the concrete input `[::1]:443`. -/
theorem splitHostPort_bracketed_roundtrip_witness :
    splitHostPort "[::1]:443" = some ("::1", "443") ∧
    splitHostPort "[::1]" = some ("::1", "") :=
  splitHostPort_bracketed_roundtrip "::1" "443" (by decide) (by decide)
    (by decide) (by decide)

/-! ## Claim C6: the worker pool -/

/-- The invariant holds at the start state. -/
theorem poolInv_init (T : List String) : PoolInv T (initPool T) := by
  refine ⟨by simp [initPool], Or.inl rfl, ?_⟩
  intro h
  simp [initPool] at h

/-- Every pipeline transition preserves the invariant.  The `emit` case
uses that the finished Target is one of the in-flight ones; the
`closeResult` guard is what certifies worker quiescence. -/
theorem poolStep_inv {T : List String} {s s' : PoolState}
    (hs : PoolStep s s') (h : PoolInv T s) : PoolInv T s' := by
  obtain ⟨hperm, hin, hres⟩ := h
  cases hs with
  | feed t rest h1 h2 =>
    refine ⟨?_, Or.inl h2, ?_⟩
    · refine List.Perm.trans ?_ hperm
      rw [h1, List.perm_iff_count]
      intro a
      simp [List.count_append, List.count_cons]
      ring
    · intro hrc
      rcases hres hrc with ⟨hf, _, _, _⟩
      rw [h1] at hf
      cases hf
  | closeInput h1 h2 =>
    exact ⟨hperm, Or.inr h1,
      fun hrc => ⟨h1, (hres hrc).2.1, (hres hrc).2.2.1, rfl⟩⟩
  | take t rest h1 =>
    refine ⟨?_, hin, ?_⟩
    · refine List.Perm.trans ?_ hperm
      rw [h1, List.perm_iff_count]
      intro a
      simp [List.count_append, List.count_cons]
      ring
    · intro hrc
      rcases hres hrc with ⟨_, hp, _, _⟩
      rw [hp] at h1
      cases h1
  | emit t h1 =>
    refine ⟨?_, hin, ?_⟩
    · refine List.Perm.trans ?_ hperm
      have hp2 : s.inFlight.Perm (t :: s.inFlight.erase t) := List.perm_cons_erase h1
      rw [List.perm_iff_count]
      intro a
      have hc := hp2.count_eq a
      simp only [List.count_cons] at hc
      simp [List.count_append, List.count_cons, hc]
      ring
    · intro hrc
      rcases hres hrc with ⟨_, _, hi, _⟩
      rw [hi] at h1
      cases h1
  | closeResult h1 h2 h3 h4 =>
    have hf : s.toFeed = [] := by
      rcases hin with hin | hin
      · rw [hin] at h1; cases h1
      · exact hin
    exact ⟨hperm, hin, fun _ => ⟨hf, h2, h3, h1⟩⟩

/-- The invariant holds in every reachable state. -/
theorem poolReach_inv {T : List String} {s : PoolState} (h : PoolReach T s) :
    PoolInv T s := by
  induction h with
  | refl => exact poolInv_init T
  | tail hsteps hstep ih => exact poolStep_inv hstep ih


/-- Claim C6: (i) for the inputs `["10.0.0.0/30", "example.com:8443"]`
with default port list `["443"]` the pipeline feeds exactly the 5
Targets shown; (ii) in every completed run the multiset of emitted
results equals the multiset of fed Targets — every Target yields exactly
one result, none dropped, none duplicated; (iii) once the result channel
is closed no transition can change the emitted results (no result is
emitted after close); (iv) hence every completed run over those inputs
emits exactly 5 results.  Proved over the transition system
`PoolStep`, which over-approximates every interleaving of the Go
pipeline. -/
theorem worker_pool_one_result_per_target :
    pipelineTargets ["443"] ["10.0.0.0/30", "example.com:8443"] = some ["10.0.0.0:443", "10.0.0.1:443", "10.0.0.2:443", "10.0.0.3:443", "example.com:8443"] ∧
    (∀ (T : List String) (s : PoolState), PoolReach T s → PoolDone s →
      s.emitted.Perm T) ∧
    (∀ (T : List String) (s : PoolState), PoolReach T s → s.resultClosed = true →
      ∀ s2, PoolStep s s2 → s2.emitted = s.emitted) ∧
    (∀ s : PoolState, PoolReach ["10.0.0.0:443", "10.0.0.1:443", "10.0.0.2:443", "10.0.0.3:443", "example.com:8443"] s → PoolDone s → s.emitted.length = 5) := by
  refine ⟨by decide, ?_, ?_, ?_⟩
  · intro T s hreach hdone
    obtain ⟨hperm, _, _⟩ := poolReach_inv hreach
    obtain ⟨hf, hp, hi, _, _⟩ := hdone
    rw [hf, hp, hi] at hperm
    simpa using hperm
  · intro T s hreach hrc s2 hstep
    obtain ⟨_, _, hres⟩ := poolReach_inv hreach
    obtain ⟨hf, hp, hi, hic⟩ := hres hrc
    cases hstep with
    | feed t rest h1 h2 => rfl
    | closeInput h1 h2 => rfl
    | take t rest h1 => rfl
    | emit t h1 => rw [hi] at h1; cases h1
    | closeResult h1 h2 h3 h4 => rfl
  · intro s hreach hdone
    obtain ⟨hperm, _, _⟩ := poolReach_inv hreach
    obtain ⟨hf, hp, hi, _, _⟩ := hdone
    rw [hf, hp, hi] at hperm
    have hpe : s.emitted.Perm ["10.0.0.0:443", "10.0.0.1:443", "10.0.0.2:443", "10.0.0.3:443", "example.com:8443"] := by simpa using hperm
    rw [hpe.length_eq]
    rfl

/-- Witness for claim C6: a concrete completed run of the pipeline over
the five concrete Targets (feed, take, emit each in turn, then close
both channels) emits exactly 5 results. -/
theorem worker_pool_one_result_per_target_witness :
    (PoolState.mk [] [] [] ["10.0.0.0:443", "10.0.0.1:443", "10.0.0.2:443", "10.0.0.3:443", "example.com:8443"] true true).emitted.length = 5 := by
  refine worker_pool_one_result_per_target.2.2.2 _ ?_ ⟨rfl, rfl, rfl, rfl, rfl⟩
  have h0 : PoolReach ["10.0.0.0:443", "10.0.0.1:443", "10.0.0.2:443", "10.0.0.3:443", "example.com:8443"] (initPool ["10.0.0.0:443", "10.0.0.1:443", "10.0.0.2:443", "10.0.0.3:443", "example.com:8443"]) := Relation.ReflTransGen.refl
  have h1 : PoolReach ["10.0.0.0:443", "10.0.0.1:443", "10.0.0.2:443", "10.0.0.3:443", "example.com:8443"] ⟨["10.0.0.1:443", "10.0.0.2:443", "10.0.0.3:443", "example.com:8443"], ["10.0.0.0:443"], [], [], false, false⟩ :=
    h0.tail (PoolStep.feed _ "10.0.0.0:443" _ rfl rfl)
  have h2 : PoolReach ["10.0.0.0:443", "10.0.0.1:443", "10.0.0.2:443", "10.0.0.3:443", "example.com:8443"] ⟨["10.0.0.1:443", "10.0.0.2:443", "10.0.0.3:443", "example.com:8443"], [], ["10.0.0.0:443"], [], false, false⟩ :=
    h1.tail (PoolStep.take _ "10.0.0.0:443" _ rfl)
  have h3 : PoolReach ["10.0.0.0:443", "10.0.0.1:443", "10.0.0.2:443", "10.0.0.3:443", "example.com:8443"] ⟨["10.0.0.1:443", "10.0.0.2:443", "10.0.0.3:443", "example.com:8443"], [], [], ["10.0.0.0:443"], false, false⟩ :=
    h2.tail (PoolStep.emit _ "10.0.0.0:443" (by decide))
  have h4 : PoolReach ["10.0.0.0:443", "10.0.0.1:443", "10.0.0.2:443", "10.0.0.3:443", "example.com:8443"] ⟨["10.0.0.2:443", "10.0.0.3:443", "example.com:8443"], ["10.0.0.1:443"], [], ["10.0.0.0:443"], false, false⟩ :=
    h3.tail (PoolStep.feed _ "10.0.0.1:443" _ rfl rfl)
  have h5 : PoolReach ["10.0.0.0:443", "10.0.0.1:443", "10.0.0.2:443", "10.0.0.3:443", "example.com:8443"] ⟨["10.0.0.2:443", "10.0.0.3:443", "example.com:8443"], [], ["10.0.0.1:443"], ["10.0.0.0:443"], false, false⟩ :=
    h4.tail (PoolStep.take _ "10.0.0.1:443" _ rfl)
  have h6 : PoolReach ["10.0.0.0:443", "10.0.0.1:443", "10.0.0.2:443", "10.0.0.3:443", "example.com:8443"] ⟨["10.0.0.2:443", "10.0.0.3:443", "example.com:8443"], [], [], ["10.0.0.0:443", "10.0.0.1:443"], false, false⟩ :=
    h5.tail (PoolStep.emit _ "10.0.0.1:443" (by decide))
  have h7 : PoolReach ["10.0.0.0:443", "10.0.0.1:443", "10.0.0.2:443", "10.0.0.3:443", "example.com:8443"] ⟨["10.0.0.3:443", "example.com:8443"], ["10.0.0.2:443"], [], ["10.0.0.0:443", "10.0.0.1:443"], false, false⟩ :=
    h6.tail (PoolStep.feed _ "10.0.0.2:443" _ rfl rfl)
  have h8 : PoolReach ["10.0.0.0:443", "10.0.0.1:443", "10.0.0.2:443", "10.0.0.3:443", "example.com:8443"] ⟨["10.0.0.3:443", "example.com:8443"], [], ["10.0.0.2:443"], ["10.0.0.0:443", "10.0.0.1:443"], false, false⟩ :=
    h7.tail (PoolStep.take _ "10.0.0.2:443" _ rfl)
  have h9 : PoolReach ["10.0.0.0:443", "10.0.0.1:443", "10.0.0.2:443", "10.0.0.3:443", "example.com:8443"] ⟨["10.0.0.3:443", "example.com:8443"], [], [], ["10.0.0.0:443", "10.0.0.1:443", "10.0.0.2:443"], false, false⟩ :=
    h8.tail (PoolStep.emit _ "10.0.0.2:443" (by decide))
  have h10 : PoolReach ["10.0.0.0:443", "10.0.0.1:443", "10.0.0.2:443", "10.0.0.3:443", "example.com:8443"] ⟨["example.com:8443"], ["10.0.0.3:443"], [], ["10.0.0.0:443", "10.0.0.1:443", "10.0.0.2:443"], false, false⟩ :=
    h9.tail (PoolStep.feed _ "10.0.0.3:443" _ rfl rfl)
  have h11 : PoolReach ["10.0.0.0:443", "10.0.0.1:443", "10.0.0.2:443", "10.0.0.3:443", "example.com:8443"] ⟨["example.com:8443"], [], ["10.0.0.3:443"], ["10.0.0.0:443", "10.0.0.1:443", "10.0.0.2:443"], false, false⟩ :=
    h10.tail (PoolStep.take _ "10.0.0.3:443" _ rfl)
  have h12 : PoolReach ["10.0.0.0:443", "10.0.0.1:443", "10.0.0.2:443", "10.0.0.3:443", "example.com:8443"] ⟨["example.com:8443"], [], [], ["10.0.0.0:443", "10.0.0.1:443", "10.0.0.2:443", "10.0.0.3:443"], false, false⟩ :=
    h11.tail (PoolStep.emit _ "10.0.0.3:443" (by decide))
  have h13 : PoolReach ["10.0.0.0:443", "10.0.0.1:443", "10.0.0.2:443", "10.0.0.3:443", "example.com:8443"] ⟨[], ["example.com:8443"], [], ["10.0.0.0:443", "10.0.0.1:443", "10.0.0.2:443", "10.0.0.3:443"], false, false⟩ :=
    h12.tail (PoolStep.feed _ "example.com:8443" _ rfl rfl)
  have h14 : PoolReach ["10.0.0.0:443", "10.0.0.1:443", "10.0.0.2:443", "10.0.0.3:443", "example.com:8443"] ⟨[], [], ["example.com:8443"], ["10.0.0.0:443", "10.0.0.1:443", "10.0.0.2:443", "10.0.0.3:443"], false, false⟩ :=
    h13.tail (PoolStep.take _ "example.com:8443" _ rfl)
  have h15 : PoolReach ["10.0.0.0:443", "10.0.0.1:443", "10.0.0.2:443", "10.0.0.3:443", "example.com:8443"] ⟨[], [], [], ["10.0.0.0:443", "10.0.0.1:443", "10.0.0.2:443", "10.0.0.3:443", "example.com:8443"], false, false⟩ :=
    h14.tail (PoolStep.emit _ "example.com:8443" (by decide))
  have h16 : PoolReach ["10.0.0.0:443", "10.0.0.1:443", "10.0.0.2:443", "10.0.0.3:443", "example.com:8443"] ⟨[], [], [], ["10.0.0.0:443", "10.0.0.1:443", "10.0.0.2:443", "10.0.0.3:443", "example.com:8443"], true, false⟩ :=
    h15.tail (PoolStep.closeInput _ rfl rfl)
  exact h16.tail (PoolStep.closeResult _ rfl rfl rfl rfl)
